import Mathlib

/-!
Shallow embedding of the node-graph core of godot-orchestrator:
the type-cast node (src/script/nodes/data/type_cast.cpp), the select node
(src/script/nodes/flow_control/select.cpp), and the node/pin model of
src/script/node.h, together with the pin-reconstruction and pin-linking
protocol of the specification (their implementations live outside the
sampled sources and are modelled from the spec where so marked).
-/

namespace Orchestrator

/-- Godot Variant value kinds (the subset relevant to the sampled nodes),
with the integer encoding of Godot's Variant::Type enum recorded by
`VariantType.toInt`. `nil` doubles as the untyped / "any" kind. -/
inductive VariantType where
  | nil
  | bool
  | int
  | float
  | string
  | vector2
  | rid
  | object
  deriving DecidableEq, Repr, Inhabited

/-- The integer value of the kind in Godot's Variant::Type enumeration. -/
def VariantType.toInt : VariantType → Int
  | .nil => 0
  | .bool => 1
  | .int => 2
  | .float => 3
  | .string => 4
  | .vector2 => 5
  | .rid => 23
  | .object => 24

/-- A Godot Variant value. `object` carries an instance id and the runtime
class name of a non-null object; `nullObject` is an OBJECT-typed null
(for which C++ `Object::cast_to` yields nullptr). -/
inductive Variant where
  | nil
  | bool (b : Bool)
  | int (i : Int)
  | float (num den : Int)
  | str (s : String)
  | vector2 (x y : Int)
  | object (id : Nat) (className : String)
  | nullObject
  deriving DecidableEq, Repr, Inhabited

/-- Variant::get_type. -/
def Variant.getType : Variant → VariantType
  | .nil => .nil
  | .bool _ => .bool
  | .int _ => .int
  | .float _ _ => .float
  | .str _ => .string
  | .vector2 _ _ => .vector2
  | .object _ _ => .object
  | .nullObject => .object

/-- Variant::booleanize: Godot truthiness of a value (null objects and
empty/zero values are false, everything else true). -/
def Variant.booleanize : Variant → Bool
  | .nil => false
  | .bool b => b
  | .int i => decide (i ≠ 0)
  | .float n _ => decide (n ≠ 0)
  | .str s => decide (s ≠ "")
  | .vector2 x y => decide (x ≠ 0 ∨ y ≠ 0)
  | .object _ _ => true
  | .nullObject => false

/-- The injected engine class-hierarchy capability (out of scope for the
core; spec section 6): a finite table mapping a class name to its direct
parent class. -/
structure ClassDB where
  superOf : List (String × String)
  deriving DecidableEq, Repr

/-- Direct parent of a class in the hierarchy table, if registered. -/
def ClassDB.directParent (db : ClassDB) (c : String) : Option String :=
  (db.superOf.find? (fun p => p.1 == c)).map (fun p => p.2)

/-- Walk the parent chain, bounded by fuel (the table length bounds any
acyclic chain). -/
def ClassDB.ancestorsAux (db : ClassDB) : Nat → String → List String
  | 0, _ => []
  | n + 1, c =>
    match db.directParent c with
    | some p => p :: db.ancestorsAux n p
    | none => []

/-- All strict ancestors of a class, nearest first. -/
def ClassDB.ancestors (db : ClassDB) (c : String) : List String :=
  db.ancestorsAux db.superOf.length c

/-- ClassDB::is_parent_class(c, t): c is t itself or inherits from t,
i.e. t is c or one of c's ancestors. -/
def ClassDB.is_parent_class (db : ClassDB) (c t : String) : Bool :=
  decide (c = t) || decide (t ∈ db.ancestors c)

/-- The execution context of one step invocation: positional input values
and positional output slots. A slot holds `none` until a step writes it,
so an unwritten output is observable. -/
structure OScriptExecutionContext where
  inputs : List Variant
  outputs : List (Option Variant)
  deriving DecidableEq, Repr, Inhabited

/-- OScriptExecutionContext::get_input(i). -/
def OScriptExecutionContext.get_input (ctx : OScriptExecutionContext) (i : Nat) : Variant :=
  ctx.inputs.getD i Variant.nil

/-- OScriptExecutionContext::set_output(i, v). -/
def OScriptExecutionContext.set_output (ctx : OScriptExecutionContext) (i : Nat) (v : Variant) :
    OScriptExecutionContext :=
  { ctx with outputs := ctx.outputs.set i (some v) }

/-- StringUtils::default_if_empty. -/
def default_if_empty (s d : String) : String :=
  if s = "" then d else s

/-- Pin direction (EPinDirection): PD_Input or PD_Output. -/
inductive EPinDirection where
  | input
  | output
  deriving DecidableEq, Repr, Inhabited

/-- The design-time type-cast node (OScriptNodeTypeCast): its one piece of
configuration is the target type name, empty when unconfigured. -/
structure OScriptNodeTypeCast where
  _target_type : String
  deriving DecidableEq, Repr, Inhabited

/-- OScriptNodeTypeCast::_get_target_type: the configured target type with
the "Object" fallback applied when empty. -/
def OScriptNodeTypeCast._get_target_type (n : OScriptNodeTypeCast) : String :=
  default_if_empty n._target_type "Object"

/-- OScriptNodeTypeCast::get_node_title: vformat("Cast To %s", _get_target_type()). -/
def OScriptNodeTypeCast.get_node_title (n : OScriptNodeTypeCast) : String :=
  "Cast To " ++ n._get_target_type

/-- OScriptNodeTypeCast::_set: on property name "type" stores the raw value
into _target_type and reports handled; the accompanying
_notify_pins_changed (a pin-reconstruction trigger) is modelled by the
separate reconstruction functions below. -/
def OScriptNodeTypeCast._set (n : OScriptNodeTypeCast) (name : String) (v : String) :
    OScriptNodeTypeCast × Bool :=
  if name = "type" then ({ n with _target_type := v }, true) else (n, false)

/-- OScriptNodeTypeCast::_get for property name "type". -/
def OScriptNodeTypeCast._get (n : OScriptNodeTypeCast) (name : String) : Option String :=
  if name = "type" then some n._target_type else none

/-- The runtime instance compiled from a type-cast node
(OScriptNodeTypeCastInstance): it keeps the back-pointer `_node` installed
by instantiate() and the frozen `_target_class`. -/
structure OScriptNodeTypeCastInstance where
  _node : OScriptNodeTypeCast
  _target_class : String
  deriving DecidableEq, Repr, Inhabited

/-- OScriptNodeTypeCast::instantiate: freezes the raw configured target
type (no "Object" fallback) into the fresh instance. -/
def OScriptNodeTypeCast.instantiate (n : OScriptNodeTypeCast) : OScriptNodeTypeCastInstance :=
  { _node := n, _target_class := n._target_type }

/-- OScriptNodeTypeCastInstance::step: if input 0 is OBJECT-typed and
non-null and its runtime class satisfies ClassDB::is_parent_class against
the frozen target class, write the input unchanged to output 0 and return
control index 0; in every other case return control index 1 with the
context untouched. -/
def OScriptNodeTypeCastInstance.step (db : ClassDB) (inst : OScriptNodeTypeCastInstance)
    (ctx : OScriptExecutionContext) : Nat × OScriptExecutionContext :=
  let input := ctx.get_input 0
  match input with
  | Variant.object _ cls =>
    if db.is_parent_class cls inst._target_class then (0, ctx.set_output 0 input)
    else (1, ctx)
  | _ => (1, ctx)

/-- OScriptNodeTypeCast::resolve_type_class, keyed by the pin's direction
and per-direction index. The node's output pins are allocated in the order
yes (index 0), no (index 1), output (index 2); the switch sends index 1 to
"Object" and indices 0 and 2 to the configured target with the "Object"
fallback; all other pins fall through to the base
OScriptNode::resolve_type_class, which returns the empty name. -/
def OScriptNodeTypeCast.resolve_type_class (n : OScriptNodeTypeCast)
    (d : EPinDirection) (idx : Nat) : String :=
  if d = EPinDirection.output then
    match idx with
    | 0 => default_if_empty n._target_type "Object"
    | 1 => "Object"
    | 2 => default_if_empty n._target_type "Object"
    | _ => ""
  else ""

/-- A connection endpoint stored on a pin: the id of the other node and the
index of the other pin (spec section 9 models connections as
(node-id, pin-index) pairs). -/
structure PinRef where
  nodeId : Int
  pinIndex : Nat
  deriving DecidableEq, Repr, Inhabited

/-- A node pin (OScriptNodePin): direction, per-direction slot index, name,
value kind, default value, whether it is an Execution pin, and its
connection set. -/
structure OScriptNodePin where
  direction : EPinDirection
  index : Nat
  name : String
  type : VariantType
  defaultValue : Option Variant
  execution : Bool
  connections : List PinRef
  deriving DecidableEq, Repr, Inhabited

/-- The (direction, name) matching key used by pin rewiring. -/
def pinKey (p : OScriptNodePin) : EPinDirection × String :=
  (p.direction, p.name)

/-- The (direction, name, type) shape of a pin, used to compare an old pin
set with a re-derived one. -/
def pinTriple (p : OScriptNodePin) : EPinDirection × String × VariantType :=
  (p.direction, p.name, p.type)

/-- Index of the first pin in a list satisfying the predicate. -/
def findPinIdx (p : OScriptNodePin → Bool) : List OScriptNodePin → Option Nat
  | [] => none
  | q :: qs => if p q then some 0 else (findPinIdx p qs).map (fun j => j + 1)

/-- Modelled from the spec: the pin-type compatibility test of the rewiring
step (section 4.2 step 4) — identical type, or the new type accepts the
old pin's value kind (an abstract, node-kind-specific capability passed in
as `accepts`), or either side is untyped ("any", VariantType.nil). -/
def pinTypeCompatible (accepts : VariantType → VariantType → Bool)
    (told tnew : VariantType) : Bool :=
  decide (told = tnew) || accepts tnew told
    || decide (told = VariantType.nil) || decide (tnew = VariantType.nil)

/-- Modelled from the spec: one step of rewire_old_pins_to_new_pins
(section 4.2 step 4). For old pin `old`, find the first new pin with the
same direction and name; if found and type-compatible, migrate every
connection of `old` onto it. If no name match exists, fall back to
matching by (direction, index), but only when the old and new pin counts
for that direction are equal (`countsEqual`). An unmatched old pin loses
its connections. -/
def migrate_connections (accepts : VariantType → VariantType → Bool)
    (countsEqual : EPinDirection → Bool)
    (news : List OScriptNodePin) (old : OScriptNodePin) : List OScriptNodePin :=
  match findPinIdx (fun q => decide (q.direction = old.direction ∧ q.name = old.name)) news with
  | some j =>
    let q := news.getD j default
    if pinTypeCompatible accepts old.type q.type then
      news.set j { q with connections := q.connections ++ old.connections }
    else news
  | none =>
    if countsEqual old.direction then
      match findPinIdx (fun q => decide (q.direction = old.direction ∧ q.index = old.index)) news with
      | some j =>
        let q := news.getD j default
        if pinTypeCompatible accepts old.type q.type then
          news.set j { q with connections := q.connections ++ old.connections }
        else news
      | none => news
    else news

/-- Modelled from the spec: rewire_old_pins_to_new_pins (section 4.2
step 4), processing each old pin in order against the new pin list. -/
def rewire_old_pins_to_new_pins (accepts : VariantType → VariantType → Bool)
    (old_pins new_pins : List OScriptNodePin) : List OScriptNodePin :=
  let countsEqual := fun d =>
    decide ((old_pins.countP (fun p => decide (p.direction = d)))
      = (new_pins.countP (fun p => decide (p.direction = d))))
  old_pins.foldl (migrate_connections accepts countsEqual) new_pins

/-- Modelled from the spec: reconstruct_node (section 4.2). The current
pins are snapshot as the old set, the pin sequence is cleared and
re-derived by the node kind's allocate_default_pins (passed in as the
already-computed `reallocated` list, connection-free), and the old
connections are rewired onto the new pins. -/
def reconstruct_node (accepts : VariantType → VariantType → Bool)
    (current reallocated : List OScriptNodePin) : List OScriptNodePin :=
  rewire_old_pins_to_new_pins accepts current reallocated

/-- find_pin(name, direction) followed by set_type(t) on the found pin:
sets the type of the first pin with the given name and direction. -/
def set_type_of_pin (pins : List OScriptNodePin) (nm : String) (d : EPinDirection)
    (t : VariantType) : List OScriptNodePin :=
  match findPinIdx (fun p => decide (p.name = nm ∧ p.direction = d)) pins with
  | some j => pins.set j { pins.getD j default with type := t }
  | none => pins

/-- Modelled from the spec: VariantUtils::to_type, the conversion from the
node's stored integer type tag to the pin value kind; the tag is the
Variant::Type enum value, so the conversion inverts `VariantType.toInt`
and defaults to the untyped kind. -/
def VariantUtils.to_type (i : Int) : VariantType :=
  if i = 1 then .bool
  else if i = 2 then .int
  else if i = 3 then .float
  else if i = 4 then .string
  else if i = 5 then .vector2
  else if i = 23 then .rid
  else if i = 24 then .object
  else .nil

/-- The design-time select node (OScriptNodeSelect): the stored type tag
`_type` and the node's pin sequence. -/
structure OScriptNodeSelect where
  _type : Int
  pins : List OScriptNodePin
  deriving DecidableEq, Repr, Inhabited

/-- The input pin "a" of a select node (per-direction index 0). -/
def selectPinA (t : VariantType) : OScriptNodePin :=
  { direction := .input, index := 0, name := "a", type := t,
    defaultValue := none, execution := false, connections := [] }

/-- The input pin "b" of a select node (per-direction index 1). -/
def selectPinB (t : VariantType) : OScriptNodePin :=
  { direction := .input, index := 1, name := "b", type := t,
    defaultValue := none, execution := false, connections := [] }

/-- The input pin "pick_a" of a select node (per-direction index 2):
BOOL-typed with default value false, independent of the node's type. -/
def selectPinPickA : OScriptNodePin :=
  { direction := .input, index := 2, name := "pick_a", type := .bool,
    defaultValue := some (Variant.bool false), execution := false, connections := [] }

/-- The output pin "result" of a select node (per-direction index 0). -/
def selectPinResult (t : VariantType) : OScriptNodePin :=
  { direction := .output, index := 0, name := "result", type := t,
    defaultValue := none, execution := false, connections := [] }

/-- OScriptNodeSelect::allocate_default_pins: data pins a, b of the node's
type, pick_a of type BOOL with default false, and output result of the
node's type (the base-class allocate_default_pins adds nothing,
node.h line 182). -/
def selectAllocateDefaultPins (t : VariantType) : List OScriptNodePin :=
  [selectPinA t, selectPinB t, selectPinPickA, selectPinResult t]

/-- OScriptNodeSelect::_set: on property name "type" stores the value plus
one (the "any" kind is skipped in the stored enumeration) and reports
handled; the accompanying _notify_pins_changed is modelled by the separate
reconstruction functions. -/
def OScriptNodeSelect._set (n : OScriptNodeSelect) (name : String) (v : Int) :
    OScriptNodeSelect × Bool :=
  if name = "type" then ({ n with _type := v + 1 }, true) else (n, false)

/-- OScriptNodeSelect::_get: on property name "type" returns the stored
tag minus one (the "any" kind is skipped). -/
def OScriptNodeSelect._get (n : OScriptNodeSelect) (name : String) : Option Int :=
  if name = "type" then some (n._type - 1) else none

/-- OScriptNodeSelect::change_pin_types: store the new type, retype the
pins a, b and result in place, then reconstruct_node (which re-derives
the default pins from the stored tag and rewires old connections). -/
def OScriptNodeSelect.change_pin_types (accepts : VariantType → VariantType → Bool)
    (n : OScriptNodeSelect) (t : VariantType) : OScriptNodeSelect :=
  let pins1 := set_type_of_pin n.pins "a" .input t
  let pins2 := set_type_of_pin pins1 "b" .input t
  let pins3 := set_type_of_pin pins2 "result" .output t
  { _type := t.toInt,
    pins := reconstruct_node accepts pins3 (selectAllocateDefaultPins (VariantUtils.to_type t.toInt)) }

/-- The runtime instance compiled from a select node
(OScriptNodeSelectInstance). -/
structure OScriptNodeSelectInstance where
  _node : OScriptNodeSelect
  deriving DecidableEq, Repr, Inhabited

/-- OScriptNodeSelect::instantiate. -/
def OScriptNodeSelect.instantiate (n : OScriptNodeSelect) : OScriptNodeSelectInstance :=
  { _node := n }

/-- OScriptNodeSelectInstance::step: booleanize input 2 ("pick_a"); write
input 0 to output 0 when true, input 1 otherwise; return control index 0. -/
def OScriptNodeSelectInstance.step (inst : OScriptNodeSelectInstance)
    (ctx : OScriptExecutionContext) : Nat × OScriptExecutionContext :=
  let pick_a := ctx.get_input 2
  if pick_a.booleanize then (0, ctx.set_output 0 (ctx.get_input 0))
  else (0, ctx.set_output 0 (ctx.get_input 1))

/-- The error taxonomy of pin linking (spec section 7). -/
inductive LinkError where
  | InvalidConnection
  deriving DecidableEq, Repr

/-- A pin as seen by the linking protocol: its owning node (none when the
pin belongs to no node), its slot index, direction, Execution-vs-Data
kind, and connection set. -/
structure LinkPin where
  owningNode : Option Int
  index : Nat
  direction : EPinDirection
  execution : Bool
  connections : List PinRef
  deriving DecidableEq, Repr, Inhabited

/-- The outcome of a link call: the error, if any, and the state of both
pins afterwards. -/
structure LinkResult where
  error : Option LinkError
  source : LinkPin
  target : LinkPin
  deriving DecidableEq, Repr

/-- Modelled from the spec: OScriptNodePin::link (section 4.1) — fails
with InvalidConnection when the directions match, when either pin belongs
to no node, or when the Data input pin of the pair already holds a
connection; otherwise records the connection symmetrically on both pins. -/
def LinkPin.link (src tgt : LinkPin) : LinkResult :=
  if src.direction = tgt.direction then
    { error := some LinkError.InvalidConnection, source := src, target := tgt }
  else if src.owningNode = none ∨ tgt.owningNode = none then
    { error := some LinkError.InvalidConnection, source := src, target := tgt }
  else
    let inp := if src.direction = EPinDirection.input then src else tgt
    if inp.execution = false ∧ inp.connections ≠ [] then
      { error := some LinkError.InvalidConnection, source := src, target := tgt }
    else
      { error := none,
        source := { src with connections :=
          src.connections ++ [{ nodeId := tgt.owningNode.getD 0, pinIndex := tgt.index }] },
        target := { tgt with connections :=
          tgt.connections ++ [{ nodeId := src.owningNode.getD 0, pinIndex := src.index }] } }

/-! Theorems. -/

/-- A small concrete class hierarchy for witnesses: Node2D inherits from
Node, Resource inherits from RefCounted. -/
def dbW : ClassDB := { superOf := [("Node2D", "Node"), ("Resource", "RefCounted")] }

/-- C1: for a context whose input 0 holds a non-null object whose runtime
class is a strict descendant of the frozen target class, the type-cast
instance's step writes that same object reference to output 0 and returns
control index 0; for an input object of a class unrelated to the target
class, step returns control index 1 and leaves the context (hence every
output slot) untouched — the only failure signal, there being no error
channel in the step result. -/
theorem typeCast_step_strict_descendant_and_unrelated :
    (∀ (db : ClassDB) (inst : OScriptNodeTypeCastInstance) (ctx : OScriptExecutionContext)
        (oid : Nat) (cls : String),
        ctx.get_input 0 = Variant.object oid cls →
        cls ≠ inst._target_class ∧ inst._target_class ∈ db.ancestors cls →
        OScriptNodeTypeCastInstance.step db inst ctx
          = (0, ctx.set_output 0 (Variant.object oid cls))) ∧
    (∀ (db : ClassDB) (inst : OScriptNodeTypeCastInstance) (ctx : OScriptExecutionContext)
        (oid : Nat) (cls : String),
        ctx.get_input 0 = Variant.object oid cls →
        db.is_parent_class cls inst._target_class = false ∧
          db.is_parent_class inst._target_class cls = false →
        OScriptNodeTypeCastInstance.step db inst ctx = (1, ctx)) := by
  constructor
  · intro db inst ctx oid cls hin hdesc
    have hpc : db.is_parent_class cls inst._target_class = true := by
      simp [ClassDB.is_parent_class, hdesc.2]
    simp [OScriptNodeTypeCastInstance.step, hin, hpc]
  · intro db inst ctx oid cls hin hunrel
    simp [OScriptNodeTypeCastInstance.step, hin, hunrel.1]

/-- Witness for C1: with target class "Node", an input object of class
"Node2D" (a strict descendant) succeeds on control index 0 writing the
object, and an input object of the unrelated class "Resource" takes
control index 1 leaving the context untouched. -/
theorem typeCast_step_strict_descendant_and_unrelated_witness :
    OScriptNodeTypeCastInstance.step dbW { _node := { _target_type := "Node" }, _target_class := "Node" }
        { inputs := [Variant.object 1 "Node2D"], outputs := [none] }
      = (0, OScriptExecutionContext.set_output
          { inputs := [Variant.object 1 "Node2D"], outputs := [none] } 0 (Variant.object 1 "Node2D")) ∧
    OScriptNodeTypeCastInstance.step dbW { _node := { _target_type := "Node" }, _target_class := "Node" }
        { inputs := [Variant.object 2 "Resource"], outputs := [none] }
      = (1, { inputs := [Variant.object 2 "Resource"], outputs := [none] }) :=
  ⟨typeCast_step_strict_descendant_and_unrelated.1 dbW _ _ 1 "Node2D" rfl (by decide),
   typeCast_step_strict_descendant_and_unrelated.2 dbW _ _ 2 "Resource" rfl (by decide)⟩

/-- C3 counterexample: with the hierarchy Node2D inherits Node, the target
class "Node2D", and an input object of runtime class "Node", the runtime
class IS an ancestor of the target class, yet step returns control
index 1 and writes no output — refuting the claim's ancestor-direction
success condition at a concrete input. -/
theorem typeCast_step_ancestor_claim_counterexample :
    ("Node" = "Node2D" ∨ "Node" ∈ dbW.ancestors "Node2D") ∧
    OScriptNodeTypeCastInstance.step dbW
        { _node := { _target_type := "Node2D" }, _target_class := "Node2D" }
        { inputs := [Variant.object 1 "Node"], outputs := [none] }
      = (1, { inputs := [Variant.object 1 "Node"], outputs := [none] }) ∧
    (OScriptNodeTypeCastInstance.step dbW
        { _node := { _target_type := "Node2D" }, _target_class := "Node2D" }
        { inputs := [Variant.object 1 "Node"], outputs := [none] }).2.outputs.getD 0 none
      = none := by
  decide

/-- C3 amended: for a context whose input 0 is a non-null object whose
runtime class is a DESCENDANT of, or equal to, the frozen target class,
step writes the value unchanged to output 0 and returns the "yes" control
index 0; otherwise (class not a descendant-or-self of the target, a null
object, or a non-object input) step returns the "no" control index 1
without writing output 0. -/
theorem typeCast_step_descendant_or_equal :
    (∀ (db : ClassDB) (inst : OScriptNodeTypeCastInstance) (ctx : OScriptExecutionContext)
        (oid : Nat) (cls : String),
        ctx.get_input 0 = Variant.object oid cls →
        (cls = inst._target_class ∨ inst._target_class ∈ db.ancestors cls) →
        OScriptNodeTypeCastInstance.step db inst ctx
          = (0, ctx.set_output 0 (Variant.object oid cls))) ∧
    (∀ (db : ClassDB) (inst : OScriptNodeTypeCastInstance) (ctx : OScriptExecutionContext)
        (oid : Nat) (cls : String),
        ctx.get_input 0 = Variant.object oid cls →
        ¬(cls = inst._target_class ∨ inst._target_class ∈ db.ancestors cls) →
        OScriptNodeTypeCastInstance.step db inst ctx = (1, ctx)) ∧
    (∀ (db : ClassDB) (inst : OScriptNodeTypeCastInstance) (ctx : OScriptExecutionContext),
        (∀ (oid : Nat) (cls : String), ctx.get_input 0 ≠ Variant.object oid cls) →
        OScriptNodeTypeCastInstance.step db inst ctx = (1, ctx)) := by
  refine ⟨?_, ?_, ?_⟩
  · intro db inst ctx oid cls hin hok
    have hpc : db.is_parent_class cls inst._target_class = true := by
      simp only [ClassDB.is_parent_class, Bool.or_eq_true, decide_eq_true_eq]
      exact hok
    simp [OScriptNodeTypeCastInstance.step, hin, hpc]
  · intro db inst ctx oid cls hin hko
    have hpc : db.is_parent_class cls inst._target_class = false := by
      simp only [ClassDB.is_parent_class, Bool.or_eq_false_iff, decide_eq_false_iff_not]
      exact ⟨fun hh => hko (Or.inl hh), fun hh => hko (Or.inr hh)⟩
    simp [OScriptNodeTypeCastInstance.step, hin, hpc]
  · intro db inst ctx hno
    cases hcase : ctx.get_input 0 with
    | object oid cls => exact absurd hcase (hno oid cls)
    | _ => simp [OScriptNodeTypeCastInstance.step, hcase]

/-- Witness for the amended C3: target "Node" accepts an object of the
equal class "Node" on control index 0; target "Node2D" rejects an object
of class "Node" (not a descendant of the target) on control index 1; a
non-object input (nil) also takes control index 1. -/
theorem typeCast_step_descendant_or_equal_witness :
    OScriptNodeTypeCastInstance.step dbW
        { _node := { _target_type := "Node" }, _target_class := "Node" }
        { inputs := [Variant.object 3 "Node"], outputs := [none] }
      = (0, OScriptExecutionContext.set_output
          { inputs := [Variant.object 3 "Node"], outputs := [none] } 0 (Variant.object 3 "Node")) ∧
    OScriptNodeTypeCastInstance.step dbW
        { _node := { _target_type := "Node2D" }, _target_class := "Node2D" }
        { inputs := [Variant.object 1 "Node"], outputs := [none] }
      = (1, { inputs := [Variant.object 1 "Node"], outputs := [none] }) ∧
    OScriptNodeTypeCastInstance.step dbW
        { _node := { _target_type := "Node" }, _target_class := "Node" }
        { inputs := [Variant.nil], outputs := [none] }
      = (1, { inputs := [Variant.nil], outputs := [none] }) :=
  ⟨typeCast_step_descendant_or_equal.1 dbW _ _ 3 "Node" rfl (by decide),
   typeCast_step_descendant_or_equal.2.1 dbW _ _ 1 "Node" rfl (by decide),
   typeCast_step_descendant_or_equal.2.2 dbW _ _
     (by intro oid cls h; exact Variant.noConfusion h)⟩

/-- C6: instantiate() snapshots the node's configured target type into the
instance's frozen _target_class, and a later configuration change through
_set("type", v) on the live node does not alter the compiled instance's
step behaviour: step consults only the frozen _target_class and never
re-reads the node reachable through its _node back-pointer. -/
theorem typeCast_instantiate_freezes_target_class (db : ClassDB) (n : OScriptNodeTypeCast)
    (v : String) (ctx : OScriptExecutionContext) :
    (n.instantiate)._target_class = n._target_type ∧
    OScriptNodeTypeCastInstance.step db
        { n.instantiate with _node := (OScriptNodeTypeCast._set n "type" v).1 } ctx
      = OScriptNodeTypeCastInstance.step db n.instantiate ctx :=
  ⟨rfl, rfl⟩

/-- C7: resolve_type_class of a type-cast node with no configured target
type returns "Object" for its "yes" output pin (output index 0) and its
data "output" pin (output index 2), and on every pin it totally returns a
name — "Object" or the empty (most general / unresolved) name — never a
fault. -/
theorem typeCast_resolve_type_class_defaults (n : OScriptNodeTypeCast)
    (h : n._target_type = "") :
    n.resolve_type_class EPinDirection.output 0 = "Object" ∧
    n.resolve_type_class EPinDirection.output 2 = "Object" ∧
    ∀ (d : EPinDirection) (i : Nat),
      n.resolve_type_class d i = "Object" ∨ n.resolve_type_class d i = "" := by
  obtain ⟨s⟩ := n
  simp only at h
  subst h
  refine ⟨rfl, rfl, ?_⟩
  intro d i
  cases d with
  | input => exact Or.inr rfl
  | output =>
    match i with
    | 0 => exact Or.inl rfl
    | 1 => exact Or.inl rfl
    | 2 => exact Or.inl rfl
    | (m + 3) => exact Or.inr rfl

/-- Witness for C7: the unconfigured type-cast node resolves both the
"yes" pin and the data output pin to "Object". -/
theorem typeCast_resolve_type_class_defaults_witness :
    OScriptNodeTypeCast.resolve_type_class { _target_type := "" } EPinDirection.output 0
        = "Object" ∧
    OScriptNodeTypeCast.resolve_type_class { _target_type := "" } EPinDirection.output 2
        = "Object" ∧
    ∀ (d : EPinDirection) (i : Nat),
      OScriptNodeTypeCast.resolve_type_class { _target_type := "" } d i = "Object" ∨
        OScriptNodeTypeCast.resolve_type_class { _target_type := "" } d i = "" :=
  typeCast_resolve_type_class_defaults { _target_type := "" } rfl

/-- C10: on a type-cast node whose configured target type is the empty
string, instantiate() freezes the raw empty string (no "Object" fallback)
into the instance, while _get_target_type, the node title, and
resolve_type_class on the data output pin all apply the "Object"
fallback. -/
theorem typeCast_instantiate_empty_target_no_fallback (n : OScriptNodeTypeCast)
    (h : n._target_type = "") :
    (n.instantiate)._target_class = "" ∧
    (n.instantiate)._target_class = n._target_type ∧
    n._get_target_type = "Object" ∧
    n.get_node_title = "Cast To Object" ∧
    n.resolve_type_class EPinDirection.output 2 = "Object" := by
  obtain ⟨s⟩ := n
  simp only at h
  subst h
  exact ⟨rfl, rfl, rfl, rfl, rfl⟩

/-- Witness for C10: the concrete unconfigured node freezes "" while the
display and resolution paths show "Object". -/
theorem typeCast_instantiate_empty_target_no_fallback_witness :
    (OScriptNodeTypeCast.instantiate { _target_type := "" })._target_class = "" ∧
    (OScriptNodeTypeCast.instantiate { _target_type := "" })._target_class
        = OScriptNodeTypeCast._target_type { _target_type := "" } ∧
    OScriptNodeTypeCast._get_target_type { _target_type := "" } = "Object" ∧
    OScriptNodeTypeCast.get_node_title { _target_type := "" } = "Cast To Object" ∧
    OScriptNodeTypeCast.resolve_type_class { _target_type := "" } EPinDirection.output 2
        = "Object" :=
  typeCast_instantiate_empty_target_no_fallback { _target_type := "" } rfl

/-- C2: the select instance's step booleanizes input 2 ("pick_a"), writes
input 0 to output 0 when it is true and input 1 otherwise, and in every
case returns control index 0. -/
theorem select_step_spec (inst : OScriptNodeSelectInstance) (ctx : OScriptExecutionContext) :
    (OScriptNodeSelectInstance.step inst ctx).1 = 0 ∧
    ((ctx.get_input 2).booleanize = true →
      OScriptNodeSelectInstance.step inst ctx = (0, ctx.set_output 0 (ctx.get_input 0))) ∧
    ((ctx.get_input 2).booleanize = false →
      OScriptNodeSelectInstance.step inst ctx = (0, ctx.set_output 0 (ctx.get_input 1))) := by
  refine ⟨?_, ?_, ?_⟩
  · cases hb : (ctx.get_input 2).booleanize <;>
      simp [OScriptNodeSelectInstance.step, hb]
  · intro hb
    simp [OScriptNodeSelectInstance.step, hb]
  · intro hb
    simp [OScriptNodeSelectInstance.step, hb]

/-- Witness for C2: with inputs (a = "x", b = "y", pick_a = true) step
writes "x" to output 0 and returns control index 0; with pick_a = false
it writes "y". -/
theorem select_step_spec_witness :
    OScriptNodeSelectInstance.step { _node := { _type := 0, pins := [] } }
        { inputs := [Variant.str "x", Variant.str "y", Variant.bool true], outputs := [none] }
      = (0, { inputs := [Variant.str "x", Variant.str "y", Variant.bool true],
              outputs := [some (Variant.str "x")] }) ∧
    OScriptNodeSelectInstance.step { _node := { _type := 0, pins := [] } }
        { inputs := [Variant.str "x", Variant.str "y", Variant.bool false], outputs := [none] }
      = (0, { inputs := [Variant.str "x", Variant.str "y", Variant.bool false],
              outputs := [some (Variant.str "y")] }) := by
  have h1 := (select_step_spec { _node := { _type := 0, pins := [] } }
    { inputs := [Variant.str "x", Variant.str "y", Variant.bool true],
      outputs := [none] }).2.1 (by decide)
  have h2 := (select_step_spec { _node := { _type := 0, pins := [] } }
    { inputs := [Variant.str "x", Variant.str "y", Variant.bool false],
      outputs := [none] }).2.2 (by decide)
  exact ⟨h1.trans (by decide), h2.trans (by decide)⟩

/-- C8: setting the select node's stored "type" property to v and reading
it back returns exactly v — the +1 applied on set (skipping the "any"
kind) and the -1 applied on get cancel. -/
theorem select_type_property_roundtrip (n : OScriptNodeSelect) (v : Int) :
    (OScriptNodeSelect._set n "type" v).2 = true ∧
    OScriptNodeSelect._get (OScriptNodeSelect._set n "type" v).1 "type" = some v := by
  constructor
  · simp [OScriptNodeSelect._set]
  · simp [OScriptNodeSelect._set, OScriptNodeSelect._get]

/-- C5: linking two pins of the same direction fails with
InvalidConnection and the connection sets of both pins are exactly what
they were before the call. -/
theorem link_same_direction_invalid (p q : LinkPin) (h : p.direction = q.direction) :
    LinkPin.link p q
      = { error := some LinkError.InvalidConnection, source := p, target := q } := by
  simp [LinkPin.link, h]

/-- Witness for C5: two concrete input pins with non-empty connection sets
are rejected with InvalidConnection and returned unchanged. -/
theorem link_same_direction_invalid_witness :
    LinkPin.link
        { owningNode := some 1, index := 0, direction := EPinDirection.input,
          execution := false, connections := [{ nodeId := 5, pinIndex := 2 }] }
        { owningNode := some 2, index := 1, direction := EPinDirection.input,
          execution := false, connections := [{ nodeId := 6, pinIndex := 3 }] }
      = { error := some LinkError.InvalidConnection,
          source := { owningNode := some 1, index := 0, direction := EPinDirection.input,
                      execution := false, connections := [{ nodeId := 5, pinIndex := 2 }] },
          target := { owningNode := some 2, index := 1, direction := EPinDirection.input,
                      execution := false, connections := [{ nodeId := 6, pinIndex := 3 }] } } :=
  link_same_direction_invalid _ _ (by decide)

/-! Helper lemmas for the reconstruction-preservation proof. -/

lemma list_set_append_cons {α : Type _} (done : List α) (x : α) (rest : List α) (v : α) :
    (done ++ x :: rest).set done.length v = done ++ v :: rest := by
  induction done with
  | nil => rfl
  | cons d ds ih =>
    show d :: ((ds ++ x :: rest).set ds.length v) = d :: (ds ++ v :: rest)
    rw [ih]

lemma list_getD_append_cons {α : Type _} (done : List α) (x : α) (rest : List α) (d : α) :
    (done ++ x :: rest).getD done.length d = x := by
  induction done with
  | nil => rfl
  | cons a ds ih =>
    show (ds ++ x :: rest).getD ds.length d = x
    exact ih

lemma list_getD_cons_succ {α : Type _} (a : α) (l : List α) (i : Nat) (d : α) :
    (a :: l).getD (i + 1) d = l.getD i d := rfl

lemma list_zipWith_getD {α β γ : Type _} (f : α → β → γ) (da : α) (db : β) (dc : γ) :
    ∀ (xs : List α) (ys : List β) (i : Nat), i < xs.length → i < ys.length →
      (List.zipWith f xs ys).getD i dc = f (xs.getD i da) (ys.getD i db) := by
  intro xs
  induction xs with
  | nil => intro ys i h _; exact absurd h (by simp)
  | cons x xs ih =>
    intro ys i h1 h2
    cases ys with
    | nil => exact absurd h2 (by simp)
    | cons y ys =>
      cases i with
      | zero => rfl
      | succ j =>
        show (List.zipWith f xs ys).getD j dc = f (xs.getD j da) (ys.getD j db)
        exact ih ys j (by simpa using h1) (by simpa using h2)

lemma list_map_getD {α β : Type _} (f : α → β) (l : List α) (i : Nat) (d : α) :
    (l.map f).getD i (f d) = f (l.getD i d) := by
  induction l generalizing i with
  | nil => cases i <;> rfl
  | cons a l ih =>
    cases i with
    | zero => rfl
    | succ j => exact ih j

lemma list_getD_mem {α : Type _} (l : List α) (i : Nat) (d : α) (h : i < l.length) :
    l.getD i d ∈ l := by
  induction l generalizing i with
  | nil => exact absurd h (by simp)
  | cons a l ih =>
    cases i with
    | zero => exact List.mem_cons_self a l
    | succ j => exact List.mem_cons_of_mem a (ih j (by simpa using h))

lemma findPinIdx_append_cons (p : OScriptNodePin → Bool) (done : List OScriptNodePin)
    (x : OScriptNodePin) (rest : List OScriptNodePin)
    (hdone : ∀ q ∈ done, p q = false) (hx : p x = true) :
    findPinIdx p (done ++ x :: rest) = some done.length := by
  induction done with
  | nil => simp [findPinIdx, hx]
  | cons a ds ih =>
    have ha : p a = false := hdone a (List.mem_cons_self a ds)
    have ih2 := ih (fun q hq => hdone q (List.mem_cons_of_mem a hq))
    simp [findPinIdx, ha, ih2]

/-- The heart of the C4 argument: rewiring a list of old pins whose
(direction, name, type) shapes match a suffix `rest` of the new pin list
pointwise, with pairwise-distinct (direction, name) keys absent from the
already-processed prefix `done`, appends each old pin's connections onto
the corresponding new pin. -/
lemma foldl_migrate_append (accepts : VariantType → VariantType → Bool)
    (ce : EPinDirection → Bool) :
    ∀ (olds done rest : List OScriptNodePin),
      (∀ p ∈ olds, ∀ q ∈ done, pinKey p ≠ pinKey q) →
      olds.map pinTriple = rest.map pinTriple →
      (olds.map pinKey).Nodup →
      olds.foldl (migrate_connections accepts ce) (done ++ rest)
        = done ++ List.zipWith
            (fun q p => { q with connections := q.connections ++ p.connections }) rest olds := by
  intro olds
  induction olds with
  | nil =>
    intro done rest hdisj htr hnd
    have hrest : rest = [] := by
      cases rest with
      | nil => rfl
      | cons r rs => simp at htr
    subst hrest
    simp
  | cons o os ih =>
    intro done rest hdisj htr hnd
    cases rest with
    | nil => simp at htr
    | cons r rs =>
      simp only [List.map_cons] at htr
      have htr1 : pinTriple o = pinTriple r := (List.cons_eq_cons.mp htr).1
      have htr2 : os.map pinTriple = rs.map pinTriple := (List.cons_eq_cons.mp htr).2
      have hdir : o.direction = r.direction := congrArg Prod.fst htr1
      have hname : o.name = r.name := congrArg (fun x => x.2.1) htr1
      have htype : o.type = r.type := congrArg (fun x => x.2.2) htr1
      have hfind : findPinIdx
          (fun q => decide (q.direction = o.direction ∧ q.name = o.name))
          (done ++ r :: rs) = some done.length := by
        apply findPinIdx_append_cons
        · intro q hq
          have hkey := hdisj o (List.mem_cons_self o os) q hq
          have hnot : ¬(q.direction = o.direction ∧ q.name = o.name) := by
            rintro ⟨e1, e2⟩
            exact hkey (by simp [pinKey, e1, e2])
          simpa using hnot
        · simp [hdir, hname]
      have hcomp : pinTypeCompatible accepts o.type r.type = true := by
        simp [pinTypeCompatible, htype]
      have hstep : migrate_connections accepts ce (done ++ r :: rs) o
          = done ++ { r with connections := r.connections ++ o.connections } :: rs := by
        unfold migrate_connections
        rw [hfind]
        simp only [list_getD_append_cons, hcomp, if_true]
        rw [list_set_append_cons]
      rw [List.foldl_cons, hstep]
      have hko : pinKey o ∉ os.map pinKey := by
        have := List.nodup_cons.mp hnd
        exact this.1
      have hnd2 : (os.map pinKey).Nodup := (List.nodup_cons.mp hnd).2
      have hdisj2 : ∀ p ∈ os,
          ∀ q ∈ done ++ [{ r with connections := r.connections ++ o.connections }],
          pinKey p ≠ pinKey q := by
        intro p hp q hq
        rcases List.mem_append.mp hq with hq1 | hq2
        · exact hdisj p (List.mem_cons_of_mem o hp) q hq1
        · have hq3 : q = { r with connections := r.connections ++ o.connections } := by
            simpa using hq2
          subst hq3
          have hkeyq : pinKey { r with connections := r.connections ++ o.connections }
              = pinKey o := by
            simp [pinKey, hdir, hname]
          rw [hkeyq]
          intro hcon
          exact hko (hcon ▸ List.mem_map_of_mem pinKey hp)
      have hrec := ih (done ++ [{ r with connections := r.connections ++ o.connections }]) rs
        hdisj2 htr2 hnd2
      have e1 : (done ++ [{ r with connections := r.connections ++ o.connections }]) ++ rs
          = done ++ { r with connections := r.connections ++ o.connections } :: rs := by
        simp
      rw [e1] at hrec
      rw [hrec]
      simp

/-- C4: when the re-derived pin set is identical to the current one —
pointwise the same directions, names and types (hence the same
per-direction counts) — and pin (direction, name) keys are distinct (as
they are for every node kind in the sources), reconstruct_node preserves
every connection exactly: each old pin's connections end up on the
same-direction, same-name new pin and none is dropped. -/
theorem reconstruct_node_identical_pins_preserves_connections
    (accepts : VariantType → VariantType → Bool)
    (old_pins new_pins : List OScriptNodePin)
    (htr : old_pins.map pinTriple = new_pins.map pinTriple)
    (hnd : (old_pins.map pinKey).Nodup)
    (hfresh : ∀ q ∈ new_pins, q.connections = []) :
    (reconstruct_node accepts old_pins new_pins).length = old_pins.length ∧
    ∀ i, i < old_pins.length →
      ((reconstruct_node accepts old_pins new_pins).getD i default).direction
          = ((old_pins.getD i default).direction) ∧
      ((reconstruct_node accepts old_pins new_pins).getD i default).name
          = ((old_pins.getD i default).name) ∧
      ((reconstruct_node accepts old_pins new_pins).getD i default).connections
          = ((old_pins.getD i default).connections) := by
  have hlen : old_pins.length = new_pins.length := by
    have := congrArg List.length htr
    simpa using this
  have hmain : reconstruct_node accepts old_pins new_pins
      = List.zipWith (fun q p => { q with connections := q.connections ++ p.connections })
          new_pins old_pins := by
    have h := foldl_migrate_append accepts
      (fun d => decide ((old_pins.countP (fun p => decide (p.direction = d)))
        = (new_pins.countP (fun p => decide (p.direction = d)))))
      old_pins [] new_pins (by intro p _ q hq; exact absurd hq (List.not_mem_nil q))
      htr hnd
    simpa [reconstruct_node, rewire_old_pins_to_new_pins] using h
  constructor
  · rw [hmain, List.length_zipWith, ← hlen, Nat.min_self]
  · intro i hi
    have hinew : i < new_pins.length := hlen ▸ hi
    have htrI : pinTriple (old_pins.getD i default) = pinTriple (new_pins.getD i default) := by
      have h1 := list_map_getD pinTriple old_pins i default
      have h2 := list_map_getD pinTriple new_pins i default
      rw [← h1, ← h2, htr]
    have hdir : (old_pins.getD i default).direction = (new_pins.getD i default).direction :=
      congrArg Prod.fst htrI
    have hname : (old_pins.getD i default).name = (new_pins.getD i default).name :=
      congrArg (fun x => x.2.1) htrI
    have hconn : (new_pins.getD i default).connections = [] :=
      hfresh (new_pins.getD i default) (list_getD_mem new_pins i default hinew)
    rw [hmain, list_zipWith_getD _ default default default new_pins old_pins i hinew hi]
    refine ⟨hdir.symm, hname.symm, ?_⟩
    show (new_pins.getD i default).connections ++ (old_pins.getD i default).connections
        = (old_pins.getD i default).connections
    rw [hconn, List.nil_append]

/-- Trivially rejecting compatibility callback for witnesses (the
identical-type case never consults it). -/
def acceptsNone : VariantType → VariantType → Bool := fun _ _ => false

/-- Witness pin sets for C4: one connected input and one connected output,
re-derived identically. -/
def oldPinsW : List OScriptNodePin :=
  [{ direction := .input, index := 0, name := "a", type := .int, defaultValue := none,
     execution := false, connections := [{ nodeId := 7, pinIndex := 0 }] },
   { direction := .output, index := 0, name := "out", type := .int, defaultValue := none,
     execution := false, connections := [{ nodeId := 9, pinIndex := 1 }] }]

/-- The re-derived, connection-free copy of `oldPinsW`. -/
def newPinsW : List OScriptNodePin :=
  [{ direction := .input, index := 0, name := "a", type := .int, defaultValue := none,
     execution := false, connections := [] },
   { direction := .output, index := 0, name := "out", type := .int, defaultValue := none,
     execution := false, connections := [] }]

/-- Witness for C4: reconstructing with an identical re-derived pin set
leaves both concrete connections in place. -/
theorem reconstruct_node_identical_pins_preserves_connections_witness :
    ((reconstruct_node acceptsNone oldPinsW newPinsW).getD 0 default).connections
        = [{ nodeId := 7, pinIndex := 0 }] ∧
    ((reconstruct_node acceptsNone oldPinsW newPinsW).getD 1 default).connections
        = [{ nodeId := 9, pinIndex := 1 }] := by
  have h := reconstruct_node_identical_pins_preserves_connections acceptsNone
    oldPinsW newPinsW (by decide) (by decide) (by decide)
  exact ⟨((h.2 0 (by decide)).2.2).trans (by decide),
         ((h.2 1 (by decide)).2.2).trans (by decide)⟩

/-- The select node's pin list after change_pin_types is exactly the
default allocation at the new type (all old default pins carry no
connections, and rewiring matches them one-to-one). -/
lemma to_type_toInt (t : VariantType) : VariantUtils.to_type t.toInt = t := by
  cases t <;> rfl

lemma select_change_pin_types_pins (accepts : VariantType → VariantType → Bool)
    (t0 t : VariantType) :
    (OScriptNodeSelect.change_pin_types accepts
        { _type := t0.toInt, pins := selectAllocateDefaultPins t0 } t).pins
      = selectAllocateDefaultPins t := by
  show rewire_old_pins_to_new_pins accepts (selectAllocateDefaultPins t)
      (selectAllocateDefaultPins (VariantUtils.to_type (VariantType.toInt t)))
    = selectAllocateDefaultPins t
  rw [to_type_toInt]
  have hnodup : ((selectAllocateDefaultPins t).map pinKey).Nodup := by
    show ([(EPinDirection.input, "a"), (EPinDirection.input, "b"),
      (EPinDirection.input, "pick_a"), (EPinDirection.output, "result")]
        : List (EPinDirection × String)).Nodup
    decide
  have h := foldl_migrate_append accepts
    (fun d => decide (((selectAllocateDefaultPins t).countP (fun p => decide (p.direction = d)))
      = ((selectAllocateDefaultPins t).countP (fun p => decide (p.direction = d)))))
    (selectAllocateDefaultPins t) [] (selectAllocateDefaultPins t)
    (by intro p _ q hq; exact absurd hq (List.not_mem_nil q)) rfl hnodup
  exact h

/-- C9: change_pin_types(t) on a select node in its default-pin state
retypes exactly the pins "a" and "b" (inputs) and "result" (output) to t,
while the "pick_a" input pin is the very same record as before the call —
BOOL-typed with default value false. -/
theorem select_change_pin_types_frame (accepts : VariantType → VariantType → Bool)
    (t0 t : VariantType) :
    (OScriptNodeSelect.change_pin_types accepts
        { _type := t0.toInt, pins := selectAllocateDefaultPins t0 } t).pins
      = [selectPinA t, selectPinB t, selectPinPickA, selectPinResult t] ∧
    (selectPinA t).type = t ∧
    (selectPinB t).type = t ∧
    (selectPinResult t).type = t ∧
    selectPinPickA.type = VariantType.bool ∧
    selectPinPickA.defaultValue = some (Variant.bool false) ∧
    (selectAllocateDefaultPins t0).getD 2 default = selectPinPickA :=
  ⟨select_change_pin_types_pins accepts t0 t, rfl, rfl, rfl, rfl, rfl, rfl⟩

end Orchestrator
